/-
  Verification development for the PlexSyncer cross-service synchronization
  engine.  The Lean definitions below are shallow embeddings of the Python
  functions in src/integrations/spotify.py, src/integrations/tidal.py,
  src/plexsyncer/api.py and src/plexsyncer/helpers.py; mutable state is made
  explicit, remote HTTP calls become oracle functions, and file-system /
  network side effects are recorded as explicit event traces.  Machine floats
  are modelled as rationals; string handling models the ASCII fragment that
  the Python code's regexes and case conversions act on.
-/
import Mathlib

attribute [local semireducible] Rat.mul Rat.inv Rat.add Rat.sub

set_option maxRecDepth 2000

/-! ## ASCII string primitives used by the Python code (str.lower, str.strip,
    regex character classes).  Python's semantics are modelled on the ASCII
    fragment that the repository's data uses. -/

/-- Python whitespace class (ASCII part): the characters matched by the regexes'
    whitespace class and stripped by str.strip. -/
def pyIsSpace (c : Char) : Bool :=
  c = ' ' || c = '\t' || c = '\n' || c = '\r' || c = '\x0b' || c = '\x0c'

/-- ASCII lower-casing of one character, modelling str.lower. -/
def pyLowerChar (c : Char) : Char :=
  if 'A' ≤ c ∧ c ≤ 'Z' then Char.ofNat (c.toNat + 32) else c

/-- str.lower on a whole string (ASCII model). -/
def pyLower (s : String) : String := ⟨s.data.map pyLowerChar⟩

/-- The word-character class of the regexes (ASCII part): letters, digits
    and underscore. -/
def pyWordChar (c : Char) : Bool := c.isAlphanum || c = '_'

/-- Collapse runs of space characters to a single space: re.sub(" +", " "). -/
def squeezeSpaces : List Char → List Char
  | [] => []
  | [c] => [c]
  | c :: d :: rest =>
    if c = ' ' ∧ d = ' ' then squeezeSpaces (d :: rest)
    else c :: squeezeSpaces (d :: rest)

/-- Drop trailing whitespace, the right half of str.strip. -/
def dropTrailingWs : List Char → List Char
  | [] => []
  | c :: rest =>
    let r := dropTrailingWs rest
    if r = [] ∧ pyIsSpace c then [] else c :: r

/-- str.strip: drop leading and trailing whitespace. -/
def stripEnds (l : List Char) : List Char :=
  dropTrailingWs (l.dropWhile pyIsSpace)

/-- str.strip on a String. -/
def pyStrip (s : String) : String := ⟨stripEnds s.data⟩

namespace Integrations

/-- spotify.py and tidal.py both define this function (identically):
      cleaned = re.sub(r"[^\w\- ]", " ", name)
      cleaned = re.sub(r" +", " ", cleaned)
      return cleaned.strip()
    One character of the first substitution: anything that is not a word
    character, a hyphen or a space becomes a space. -/
def badToSpace (c : Char) : Char :=
  if pyWordChar c || c = '-' || c = ' ' then c else ' '

/-- sanitize_filename from src/integrations/spotify.py (lines 72-75) and
    src/integrations/tidal.py (lines 72-78). -/
def sanitize_filename (s : String) : String :=
  ⟨stripEnds (squeezeSpaces (s.data.map badToSpace))⟩

end Integrations

namespace Helpers

/-- The character class replaced by sanitize_filename in
    src/plexsyncer/helpers.py: re.sub(r'[\\/*?:"<>|]', "_", name). -/
def badChar (c : Char) : Bool :=
  c = '\\' || c = '/' || c = '*' || c = '?' || c = ':' ||
  c = '"' || c = '<' || c = '>' || c = '|'

/-- sanitize_filename from src/plexsyncer/helpers.py (lines 17-21). -/
def sanitize_filename (s : String) : String :=
  ⟨s.data.map (fun c => if badChar c then '_' else c)⟩

end Helpers

/-! ## src/plexsyncer/api.py — local-index entity resolution
    (_normalize_track_name, _extract_artist_and_title, _similarity_score,
    _find_best_track_match). -/

/-- Index (0-based) of the last occurrence of a character, None if absent
    (Python str.rfind, with -1 mapped to none). -/
def lastIdxOf (l : List Char) (c : Char) : Option Nat :=
  ((List.range l.length).filter (fun i => l.get? i = some c)).getLast?

/-- The root part of os.path.splitext (posix rules): cut at the last dot that
    lies after the last path separator, unless every character of the basename
    before that dot is itself a dot. -/
def splitextRoot (l : List Char) : List Char :=
  let base : Nat := match lastIdxOf l '/' with
    | some i => i + 1
    | none => 0
  match lastIdxOf l '.' with
  | none => l
  | some dotIdx =>
    if base ≤ dotIdx ∧ (List.range' base (dotIdx - base)).any (fun i => l.get? i ≠ some '.')
    then l.take dotIdx else l

/-- Value of an ASCII hex digit. -/
def hexVal (c : Char) : Option Nat :=
  if '0' ≤ c ∧ c ≤ '9' then some (c.toNat - '0'.toNat)
  else if 'a' ≤ c ∧ c ≤ 'f' then some (c.toNat - 'a'.toNat + 10)
  else if 'A' ≤ c ∧ c ≤ 'F' then some (c.toNat - 'A'.toNat + 10)
  else none

/-- urllib.parse.unquote modelled for single-byte (ASCII) percent escapes:
    "%XY" with two hex digits decodes to the byte 16*X+Y; anything else is
    copied through unchanged (multi-byte UTF-8 escapes do not occur in the
    inputs considered here). -/
def unquoteChars : List Char → List Char
  | '%' :: a :: b :: rest =>
    match hexVal a, hexVal b with
    | some x, some y => Char.ofNat (16 * x + y) :: unquoteChars rest
    | _, _ => '%' :: unquoteChars (a :: b :: rest)
  | c :: rest => c :: unquoteChars rest
  | [] => []

/-- re.sub(r"^\d+\s*[-\.]\s*", "", name): strip one leading run of digits
    followed by optional whitespace, one '-' or '.', and optional whitespace. -/
def stripLeadingTrackNum (l : List Char) : List Char :=
  if l.takeWhile Char.isDigit = [] then l
  else
    match (l.dropWhile Char.isDigit).dropWhile pyIsSpace with
    | c :: tail => if c = '-' ∨ c = '.' then tail.dropWhile pyIsSpace else l
    | [] => l

/-- Scan to just past the first closing delimiter, None if there is none. -/
def splitAtClose (rpar : Char) : List Char → Option (List Char)
  | [] => none
  | c :: rest => if c = rpar then some rest else splitAtClose rpar rest

/-- Fueled worker for the delimiter-group removal; the fuel only bounds the
    recursion depth (splitAtClose always returns a strict suffix, so the
    input's length is enough fuel) and keeps the recursion structural so the
    kernel can evaluate it. -/
def removeDelimGo (lpar rpar : Char) : Nat → List Char → List Char
  | _, [] => []
  | 0, l => l
  | fuel + 1, c :: rest =>
    if c = lpar then
      match splitAtClose rpar rest with
      | some after => removeDelimGo lpar rpar fuel after
      | none => c :: removeDelimGo lpar rpar fuel rest
    else c :: removeDelimGo lpar rpar fuel rest

/-- re.sub of the pattern "lpar [^rpar]* rpar" by "" applied globally:
    drop every delimited group (up to the first closing delimiter, as the
    non-greedy-equivalent character class does); an opening delimiter with no
    later closing one is kept. -/
def removeDelim (lpar rpar : Char) (l : List Char) : List Char :=
  removeDelimGo lpar rpar l.length l

/-- Worker for whitespace-run collapsing: the flag records whether the
    previous character was whitespace (the first character of a run becomes
    one space, the rest are dropped). -/
def collapseWsGo : Bool → List Char → List Char
  | _, [] => []
  | prevSpace, c :: rest =>
    if pyIsSpace c then
      if prevSpace then collapseWsGo true rest
      else ' ' :: collapseWsGo true rest
    else c :: collapseWsGo false rest

/-- re.sub(r"\s+", " "): every maximal run of whitespace becomes one space. -/
def collapseWs (l : List Char) : List Char :=
  collapseWsGo false l

/-- _normalize_track_name from src/plexsyncer/api.py (lines 1168-1194):
    drop the file extension, URL-decode, strip a leading track number,
    drop parenthesized and bracketed groups, collapse whitespace, strip,
    lower-case. -/
def _normalize_track_name (name : String) : String :=
  let l := splitextRoot name.data
  let l := unquoteChars l
  let l := stripLeadingTrackNum l
  let l := removeDelim '(' ')' l
  let l := removeDelim '[' ']' l
  pyLower ⟨stripEnds (collapseWs l)⟩

/-- Python str.isdigit (ASCII model): nonempty and all digits. -/
def pyIsdigit (s : String) : Bool := !s.data.isEmpty && s.data.all Char.isDigit

/-- Python str.split(sep) for a nonempty separator: scan left to right,
    cutting at each non-overlapping occurrence.  The fuel only keeps the
    recursion structural; the input's length always suffices. -/
def splitSepGo (sep : List Char) : Nat → List Char → List Char → List (List Char)
  | _, acc, [] => [acc.reverse]
  | 0, acc, l => [acc.reverse ++ l]
  | fuel + 1, acc, c :: rest =>
    if sep.isPrefixOf (c :: rest) then
      acc.reverse :: splitSepGo sep fuel [] ((c :: rest).drop sep.length)
    else splitSepGo sep fuel (c :: acc) rest

/-- Python str.split(sep) on Strings. -/
def pySplit (sep : String) (s : String) : List String :=
  (splitSepGo sep.data s.data.length [] s.data).map (fun l => ⟨l⟩)

/-- Python sep.join(parts). -/
def pyJoin (sep : String) : List String → String
  | [] => ""
  | [x] => x
  | x :: y :: rest => x ++ sep ++ pyJoin sep (y :: rest)

/-- _extract_artist_and_title from src/plexsyncer/api.py (lines 1197-1222):
    split on " - ", skip a leading numeric part, return (artist, title);
    (none, name) when no such pattern exists. -/
def _extract_artist_and_title (track_name : String) : Option String × String :=
  let parts := pySplit " - " track_name
  if parts.length ≤ 1 then (none, track_name)
  else
    let first := (parts.headD "")
    let start_idx := if pyIsdigit ⟨(stripEnds first.data).filter (fun c => c ≠ '.')⟩ then 1 else 0
    if start_idx + 1 < parts.length then
      (some (pyStrip ((parts.get? start_idx).getD "")),
       pyStrip (pyJoin " - " (parts.drop (start_idx + 1))))
    else (none, track_name)

/-! ### difflib.SequenceMatcher.ratio (no junk: inputs are far shorter than the
    autojunk threshold of 200), the metric behind _similarity_score. -/

/-- State of find_longest_match: best block start in a, start in b, size. -/
structure LM where
  besti : Nat
  bestj : Nat
  bestsize : Nat
deriving DecidableEq

/-- b2j of SequenceMatcher: the ascending indices at which a character occurs. -/
def charIndices (b : List Char) (c : Char) : List Nat :=
  (List.range b.length).filter (fun j => b.get? j = some c)

/-- Inner loop of find_longest_match over the occurrence list of a[i]:
    builds newj2len and updates the best block.  Indices below blo are
    skipped, the scan breaks at bhi; a run ending at (i, j) has length
    j2len[j-1] + 1 (missing keys default to 0, and Python's key -1 is never
    present, hence the j = 0 guard). -/
def flmScanJ (i blo bhi : Nat) (j2len : Nat → Nat) :
    List Nat → (Nat → Nat) → LM → (Nat → Nat) × LM
  | [], acc, st => (acc, st)
  | j :: rest, acc, st =>
    if j < blo then flmScanJ i blo bhi j2len rest acc st
    else if bhi ≤ j then (acc, st)
    else
      let k := (if j = 0 then 0 else j2len (j - 1)) + 1
      let acc2 : Nat → Nat := fun x => if x = j then k else acc x
      let st2 := if st.bestsize < k then LM.mk (i + 1 - k) (j + 1 - k) k else st
      flmScanJ i blo bhi j2len rest acc2 st2

/-- Outer loop of find_longest_match over i in [alo, ahi). -/
def flmScanI (a b : List Char) (blo bhi : Nat) :
    List Nat → (Nat → Nat) → LM → LM
  | [], _, st => st
  | i :: rest, j2len, st =>
    let js := match a.get? i with
      | some ch => charIndices b ch
      | none => []
    let p := flmScanJ i blo bhi j2len js (fun _ => 0) st
    flmScanI a b blo bhi rest p.1 p.2

/-- The backward extension while-loop of find_longest_match (with an empty
    junk set its guard reduces to a plain character comparison); fuel bounds
    the iteration count, besti + 1 always suffices. -/
def extendBack (a b : List Char) (alo blo : Nat) : Nat → LM → LM
  | 0, st => st
  | fuel + 1, st =>
    if alo < st.besti ∧ blo < st.bestj ∧ (a.get? (st.besti - 1)).isSome ∧
        a.get? (st.besti - 1) = b.get? (st.bestj - 1) then
      extendBack a b alo blo fuel (LM.mk (st.besti - 1) (st.bestj - 1) (st.bestsize + 1))
    else st

/-- The forward extension while-loop of find_longest_match. -/
def extendFwd (a b : List Char) (ahi bhi : Nat) : Nat → LM → LM
  | 0, st => st
  | fuel + 1, st =>
    if st.besti + st.bestsize < ahi ∧ st.bestj + st.bestsize < bhi ∧
        (a.get? (st.besti + st.bestsize)).isSome ∧
        a.get? (st.besti + st.bestsize) = b.get? (st.bestj + st.bestsize) then
      extendFwd a b ahi bhi fuel (LM.mk st.besti st.bestj (st.bestsize + 1))
    else st

/-- SequenceMatcher.find_longest_match on a[alo:ahi] x b[blo:bhi]. -/
def find_longest_match (a b : List Char) (alo ahi blo bhi : Nat) : LM :=
  let st0 := flmScanI a b blo bhi (List.range' alo (ahi - alo)) (fun _ => 0) (LM.mk alo blo 0)
  let st1 := extendBack a b alo blo st0.besti st0
  extendFwd a b ahi bhi ahi st1

/-- Total size of the matching blocks (get_matching_blocks recursion): the
    longest block plus the blocks of the two remaining corners.  fuel bounds
    the recursion depth; length a + length b + 1 always suffices. -/
def matchingSizes (a b : List Char) : Nat → Nat → Nat → Nat → Nat → Nat
  | 0, _, _, _, _ => 0
  | fuel + 1, alo, ahi, blo, bhi =>
    let m := find_longest_match a b alo ahi blo bhi
    if m.bestsize = 0 then 0
    else
      matchingSizes a b fuel alo m.besti blo m.bestj + m.bestsize +
        matchingSizes a b fuel (m.besti + m.bestsize) ahi (m.bestj + m.bestsize) bhi

/-- Matched-element total over the full sequences. -/
def matchesTotal (a b : List Char) : Nat :=
  matchingSizes a b (a.length + b.length + 1) 0 a.length 0 b.length

/-- SequenceMatcher.ratio: 2M / T, and 1 when both sequences are empty. -/
def seqMatchScore (a b : List Char) : ℚ :=
  let total := a.length + b.length
  if total = 0 then 1 else (2 * (matchesTotal a b : ℚ)) / (total : ℚ)

/-- _similarity_score from src/plexsyncer/api.py (lines 1225-1227):
    SequenceMatcher(None, a.lower(), b.lower()).ratio(). -/
def _similarity_score (a b : String) : ℚ :=
  seqMatchScore (pyLower a).data (pyLower b).data

/-! ### _find_best_track_match (src/plexsyncer/api.py lines 1230-1291). -/

/-- A pre-fetched catalog candidate: Plex track objects expose a title and an
    optional artist object (track.artist() may be None). -/
structure PlexTrack where
  title : String
  artist : Option String
deriving DecidableEq

/-- track.title.lower() of a candidate. -/
def trackTitleL (tr : PlexTrack) : String := pyLower tr.title

/-- track.artist().title.lower() if track.artist() else "". -/
def trackArtistL (tr : PlexTrack) : String :=
  match tr.artist with
  | some a => pyLower a
  | none => ""

/-- Python truthiness of an optional string (None and "" are falsy). -/
def optTruthy : Option String → Bool
  | none => false
  | some s => !(s == "")

/-- Python's substring operator: needle in hay. -/
def pyContains (needle hay : String) : Bool :=
  (List.range (hay.data.length + 1)).any (fun i => needle.data.isPrefixOf (hay.data.drop i))

/-- Strategy 2 of _find_best_track_match: artist text extracted and truthy,
    title text truthy, candidate artist contains it, and title similarity
    exceeds 0.8. -/
def strat2Hit (asOpt : Option String) (ts : String) (tr : PlexTrack) : Bool :=
  optTruthy asOpt && !(ts == "") &&
  pyContains (pyLower (asOpt.getD "")) (trackArtistL tr) &&
  decide (_similarity_score ts (trackTitleL tr) > 4 / 5)

/-- Strategy 4's combined "artist title" similarity for one candidate. -/
def combinedScore (asOpt : Option String) (ts : String) (tr : PlexTrack) : ℚ :=
  _similarity_score (pyLower (asOpt.getD "") ++ " " ++ ts)
    (trackArtistL tr ++ " " ++ trackTitleL tr)

/-- Either immediate-return strategy (exact lowered-title match, or strategy 2)
    fires for this candidate. -/
def earlyHit (ns : String) (asOpt : Option String) (ts : String) (tr : PlexTrack) : Bool :=
  (ns == trackTitleL tr) || strat2Hit asOpt ts tr

/-- The for-loop of _find_best_track_match with its (best_match, best_score)
    accumulator; the final line returns best_match only when best_score
    clears min_similarity. -/
def findLoop (minSim : ℚ) (ns : String) (asOpt : Option String) (ts : String) :
    List PlexTrack → Option PlexTrack × ℚ → Option PlexTrack
  | [], acc => if minSim ≤ acc.2 then acc.1 else none
  | tr :: rest, acc =>
    if ns == trackTitleL tr then some tr
    else if strat2Hit asOpt ts tr then some tr
    else
      let s3 := _similarity_score ns (trackTitleL tr)
      let acc1 := if acc.2 < s3 ∧ minSim ≤ s3 then (some tr, s3) else acc
      let acc2 :=
        if optTruthy asOpt && !(ts == "") then
          let comb := combinedScore asOpt ts tr
          if acc1.2 < comb ∧ minSim ≤ comb then (some tr, comb) else acc1
        else acc1
      findLoop minSim ns asOpt ts rest acc2

/-- _find_best_track_match from src/plexsyncer/api.py (lines 1230-1291);
    min_similarity defaults to 0.6 at every call site. -/
def _find_best_track_match (search_name : String) (plex_tracks : List PlexTrack)
    (minSim : ℚ) : Option PlexTrack :=
  let ns := _normalize_track_name search_name
  let p := _extract_artist_and_title ns
  findLoop minSim ns p.1 p.2 plex_tracks (none, 0)

/-! ## src/integrations/tidal.py — remote-search resolution
    (augment_spotify_with_tidal_ids, lines 764-906) and its event trace.
    Remote search responses become an oracle keyed by the query string;
    file writes, renames and searches are recorded as events.  The function's
    initial load (input file or resume from the .part file) is modelled by
    taking the already-loaded document as input. -/

/-- strip_accents (nested in augment_spotify_with_tidal_ids): NFKD-normalize
    and drop mark-category characters.  On the ASCII fragment modelled here
    NFKD is the identity, so only combining diacritical marks are filtered. -/
def strip_accents (s : String) : String :=
  ⟨s.data.filter (fun c => !(decide (0x300 ≤ c.toNat ∧ c.toNat ≤ 0x36F)))⟩

/-- str.replace("/", " "). -/
def replaceSlash (s : String) : String :=
  ⟨s.data.map (fun c => if c = '/' then ' ' else c)⟩

/-- simplify_query (nested in augment_spotify_with_tidal_ids, lines 833-850):
    level 0 full text, level 1 drops parenthesized content, level 2 cuts the
    title at the first colon or dash, level 3 keeps the first listed artist,
    level 4 is title-only. -/
def simplify_query (title artist : String) (level : Nat) : String :=
  let t := replaceSlash (strip_accents title)
  let a := replaceSlash (strip_accents artist)
  if level = 0 then pyStrip (t ++ " " ++ a)
  else
    let t : String := ⟨removeDelim '(' ')' t.data⟩
    let t : String := if 2 ≤ level then ⟨t.data.takeWhile (fun c => c ≠ ':' ∧ c ≠ '-')⟩ else t
    let a : String := if level = 3 then ⟨a.data.takeWhile (fun c => c ≠ ',')⟩ else a
    if level = 4 then pyStrip t
    else pyStrip (t ++ " " ++ a)

/-- The character class re.sub removes from the query before sending it. -/
def queryBadChar (c : Char) : Bool :=
  c = '"' || c = ':' || c = '[' || c = ']' || c = '(' || c = ')' || c = '\''

/-- The query actually searched at one level: simplify, blank out quote /
    colon / bracket characters, collapse whitespace, strip, cap at 100
    characters (the URL encoding that follows is injective and elided). -/
def levelQuery (title artist : String) (level : Nat) : String :=
  let q := simplify_query title artist level
  let q : String := ⟨q.data.map (fun c => if queryBadChar c then ' ' else c)⟩
  let q := pyStrip ⟨collapseWs q.data⟩
  ⟨q.data.take 100⟩

/-- One entry of the "included" array of a searchSuggestions response. -/
structure SItem where
  type : String
  id : Option String
deriving DecidableEq

/-- A search response: the unexpected bare-list shape, a raised exception
    inside _request_with_retries, or a JSON document with its included items. -/
inductive SResp
  | malformed
  | err
  | doc (included : List SItem)
deriving DecidableEq

/-- next( (item for item in included if item.get("type") == "tracks"), None). -/
def firstTracksItem (items : List SItem) : Option SItem :=
  items.find? (fun it => it.type == "tracks")

/-- The accepted id of a response: the first tracks-typed included item,
    provided it carries an "id". -/
def respHit (r : SResp) : Option String :=
  match r with
  | SResp.doc items => (firstTracksItem items).bind (fun it => it.id)
  | _ => none

/-- Provenance tag written into tidal_search_level: "reused", a simplification
    level, or an explicit null. -/
inductive Prov
  | reused
  | lvl (n : Nat)
  | null
deriving DecidableEq

/-- Side effects of the augmentation jobs: a whole-document write to a path,
    an os.replace / Path.rename, or one remote search. -/
inductive Ev
  | write (path : String)
  | rename (src dst : String)
  | search (query : String)
deriving DecidableEq

/-- The level loop (for level in range(max_levels), lines 852-898) over the
    remaining levels, carrying the (trackUri_tidal, tidal_search_level) field
    state: stop with the accepted id at the first hit, break on a malformed
    (list-shaped) response, continue past exceptions and empty results. -/
def searchGo (oracle : String → SResp) (title artist : String) :
    List Nat → Option String × Option Prov → (Option String × Option Prov) × List Ev
  | [], fields => (fields, [])
  | level :: rest, _ =>
    let q := levelQuery title artist level
    match oracle q with
    | SResp.malformed => ((none, some Prov.null), [Ev.search q])
    | SResp.err =>
      let r := searchGo oracle title artist rest (none, some Prov.null)
      (r.1, Ev.search q :: r.2)
    | SResp.doc items =>
      match (firstTracksItem items).bind (fun it => it.id) with
      | some tid => ((some tid, some (Prov.lvl level)), [Ev.search q])
      | none =>
        let r := searchGo oracle title artist rest (none, some Prov.null)
        (r.1, Ev.search q :: r.2)

/-- The full five-level search for one unresolved track. -/
def tidalSearchLevels (oracle : String → SResp) (title artist : String) :
    (Option String × Option Prov) × List Ev :=
  searchGo oracle title artist (List.range 5) (none, none)

/-- One track record of the checkpoint document.  An Option none models both
    an absent key and an explicit JSON null wherever the code only tests
    truthiness; tidal_search_level distinguishes an absent key (none) from an
    explicit null (some Prov.null). -/
structure STrack where
  trackName : String
  artistName : String
  trackUri_spotify : Option String
  trackUri_tidal : Option String
  tidal_search_level : Option Prov
deriving DecidableEq

/-- One playlist of the checkpoint document. -/
structure SPlaylist where
  name : String
  tracks : List STrack
deriving DecidableEq

/-- The checkpoint document. -/
structure SDoc where
  playlists : List SPlaylist
deriving DecidableEq

/-- Python dict get: the most recently inserted binding wins (insertion is
    cons at the front). -/
def dictGet (m : List (String × String)) (k : String) : Option String :=
  (m.find? (fun e => e.1 == k)).map Prod.snd

/-- First pass of augment_spotify_with_tidal_ids (lines 792-800): collect the
    spotify-id to tidal-id map from tracks that already carry both. -/
def buildSpToTd (doc : SDoc) : List (String × String) :=
  doc.playlists.foldl (fun m pl =>
    pl.tracks.foldl (fun m tr =>
      if optTruthy tr.trackUri_spotify ∧ optTruthy tr.trackUri_tidal then
        (tr.trackUri_spotify.getD "", tr.trackUri_tidal.getD "") :: m
      else m) m) []

/-- The first pass also sanitizes every playlist name in place. -/
def sanitizePlaylistNames (doc : SDoc) : SDoc :=
  SDoc.mk (doc.playlists.map (fun pl =>
    SPlaylist.mk (Integrations.sanitize_filename pl.name) pl.tracks))

/-- Second-pass body for one track (lines 803-902): skip tracks without a
    spotify id or with a truthy tidal id; fill from the map with provenance
    "reused" when possible; otherwise run the level search, record the new
    mapping on success; each processed track saves the whole document to the
    .part path. -/
def processTidalTrack (oracle : String → SResp) (part : String)
    (m : List (String × String)) (tr : STrack) :
    STrack × List (String × String) × List Ev :=
  if !(optTruthy tr.trackUri_spotify) || optTruthy tr.trackUri_tidal then (tr, m, [])
  else
    match (dictGet m (tr.trackUri_spotify.getD "")).bind
        (fun v => if v == "" then none else some v) with
    | some tid =>
      ({tr with trackUri_tidal := some tid, tidal_search_level := some Prov.reused}, m,
        [Ev.write part])
    | none =>
      let r := tidalSearchLevels oracle tr.trackName tr.artistName
      let m2 := match r.1.1 with
        | some tid => (tr.trackUri_spotify.getD "", tid) :: m
        | none => m
      ({tr with trackUri_tidal := r.1.1, tidal_search_level := r.1.2}, m2,
        r.2 ++ [Ev.write part])

/-- Second pass over one playlist's tracks. -/
def augTidalTracks (oracle : String → SResp) (part : String) :
    List STrack → List (String × String) →
    List STrack × List (String × String) × List Ev
  | [], m => ([], m, [])
  | tr :: rest, m =>
    let r := processTidalTrack oracle part m tr
    let rr := augTidalTracks oracle part rest r.2.1
    (r.1 :: rr.1, rr.2.1, r.2.2 ++ rr.2.2)

/-- Second pass over all playlists. -/
def augTidalPlaylists (oracle : String → SResp) (part : String) :
    List SPlaylist → List (String × String) →
    List SPlaylist × List (String × String) × List Ev
  | [], m => ([], m, [])
  | pl :: rest, m =>
    let r := augTidalTracks oracle part pl.tracks m
    let rr := augTidalPlaylists oracle part rest r.2.1
    (SPlaylist.mk pl.name r.1 :: rr.1, rr.2.1, r.2.2 ++ rr.2.2)

/-- augment_spotify_with_tidal_ids from src/integrations/tidal.py
    (lines 764-906): sanitize names, build the reuse map, process every track
    (saving the whole document to output_path + ".part" after each processed
    track), and finally os.replace the .part file onto output_path. -/
def augment_spotify_with_tidal_ids (oracle : String → SResp) (doc : SDoc)
    (output_path : String) : SDoc × List Ev :=
  let part := output_path ++ ".part"
  let doc1 := sanitizePlaylistNames doc
  let m0 := buildSpToTd doc1
  let r := augTidalPlaylists oracle part doc1.playlists m0
  (SDoc.mk r.1, r.2.2 ++ [Ev.rename part output_path])

/-! ## src/integrations/spotify.py — augment_tidal_with_spotify_ids
    (lines 455-499). -/

/-- Outcome of one _search_spotify_track call: a first-item URI, an empty
    result list, or a raised exception. -/
inductive SpotSearch
  | found (uri : String)
  | notFound
  | err
deriving DecidableEq

/-- dict get on the tidal-to-spotify map; the stored value can itself be None
    (a failed search is recorded as None and then reused). -/
def spotDictGet (m : List (String × Option String)) (k : String) : Option (Option String) :=
  (m.find? (fun e => e.1 == k)).map Prod.snd

/-- First pass (lines 468-475): collect tidal-id to spotify-uri for tracks
    carrying both. -/
def buildTdToSp (doc : SDoc) : List (String × Option String) :=
  doc.playlists.foldl (fun m pl =>
    pl.tracks.foldl (fun m tr =>
      if optTruthy tr.trackUri_tidal ∧ optTruthy tr.trackUri_spotify then
        (tr.trackUri_tidal.getD "", tr.trackUri_spotify) :: m
      else m) m) []

/-- Second-pass body for one track (lines 477-496): skip tracks without a
    tidal id or with a truthy spotify uri; fill from the map when the KEY is
    present (even if the stored value is None) — note that no provenance field
    is written on this path; otherwise search once with
    "track:{title} artist:{artist}" and record the result (also None) in the
    map, except that a raised search leaves the map untouched.  Every
    processed track writes the whole document to the .part path. -/
def processSpotifyTrack (oracle : String → SpotSearch) (part : String)
    (m : List (String × Option String)) (t : STrack) :
    STrack × List (String × Option String) × List Ev :=
  if !(optTruthy t.trackUri_tidal) || optTruthy t.trackUri_spotify then (t, m, [])
  else
    match spotDictGet m (t.trackUri_tidal.getD "") with
    | some v => ({t with trackUri_spotify := v}, m, [Ev.write part])
    | none =>
      let q := "track:" ++ t.trackName ++ " artist:" ++ t.artistName
      match oracle q with
      | SpotSearch.found u =>
        ({t with trackUri_spotify := some u}, (t.trackUri_tidal.getD "", some u) :: m,
          [Ev.search q, Ev.write part])
      | SpotSearch.notFound =>
        ({t with trackUri_spotify := none}, (t.trackUri_tidal.getD "", (none : Option String)) :: m,
          [Ev.search q, Ev.write part])
      | SpotSearch.err =>
        ({t with trackUri_spotify := none}, m, [Ev.search q, Ev.write part])

/-- Second pass over one playlist's tracks. -/
def augSpotTracks (oracle : String → SpotSearch) (part : String) :
    List STrack → List (String × Option String) →
    List STrack × List (String × Option String) × List Ev
  | [], m => ([], m, [])
  | t :: rest, m =>
    let r := processSpotifyTrack oracle part m t
    let rr := augSpotTracks oracle part rest r.2.1
    (r.1 :: rr.1, rr.2.1, r.2.2 ++ rr.2.2)

/-- Second pass over all playlists. -/
def augSpotPlaylists (oracle : String → SpotSearch) (part : String) :
    List SPlaylist → List (String × Option String) →
    List SPlaylist × List (String × Option String) × List Ev
  | [], m => ([], m, [])
  | pl :: rest, m =>
    let r := augSpotTracks oracle part pl.tracks m
    let rr := augSpotPlaylists oracle part rest r.2.1
    (SPlaylist.mk pl.name r.1 :: rr.1, rr.2.1, r.2.2 ++ rr.2.2)

/-- augment_tidal_with_spotify_ids from src/integrations/spotify.py
    (lines 455-499): sanitize names, build the reuse map, process every track
    (writing the whole document to output_path + ".part" after each processed
    track), then Path(part_path).rename(output_path). -/
def augment_tidal_with_spotify_ids (oracle : String → SpotSearch) (doc : SDoc)
    (output_path : String) : SDoc × List Ev :=
  let part := output_path ++ ".part"
  let doc1 := sanitizePlaylistNames doc
  let m0 := buildTdToSp doc1
  let r := augSpotPlaylists oracle part doc1.playlists m0
  (SDoc.mk r.1, r.2.2 ++ [Ev.rename part output_path])

/-! ## Reconciliation delta (add_playlists_and_tracks_from_json,
    src/integrations/spotify.py lines 501-537 and src/integrations/tidal.py
    lines 1029-1095). -/

/-- new_ids = [tid for tid in desired_ids if tid not in existing_ids]. -/
def newIds (desired existing : List String) : List String :=
  desired.filter (fun t => !(existing.contains t))

/-- The per-batch slices issued by _add_tracks_to_playlist
    (for i in range(0, len(track_ids), batch_size)); batch_size is 100 for
    Spotify and 20 for TIDAL. -/
def chunks (bs : Nat) (l : List String) : List (List String) :=
  if l.isEmpty then []
  else if bs = 0 then [l]
  else l.take bs :: chunks bs (l.drop bs)
termination_by l.length
decreasing_by
  simp only [List.length_drop]
  rename_i h1 h2
  have hl : 0 < l.length := by
    cases l with
    | nil => simp [List.isEmpty] at h1
    | cons a t => simp
  omega

/-- The addition calls one playlist triggers: none at all when the delta is
    empty (the code skips the playlist), otherwise one batched POST per
    chunk of the delta. -/
def additionCalls (bs : Nat) (desired existing : List String) : List (List String) :=
  let n := newIds desired existing
  if n.isEmpty then [] else chunks bs n

/-- The remote playlist membership after a successful run: the engine appends
    exactly the computed delta (the remote service reports previously added
    identifiers back on the next fetch). -/
def remoteAfterRun (desired existing : List String) : List String :=
  existing ++ newIds desired existing

/-! ## Playlist resolution (find_playlist_by_name, tidal.py lines 908-945 and
    spotify.py lines 368-391, and the lookup-or-create head of
    add_playlists_and_tracks_from_json). -/

namespace Tidal

/-- find_playlist_by_name: scan the user's playlist listing (flattened across
    pages, as (id, name) pairs) and return the id of the first entry whose
    sanitized name equals the sanitized requested name. -/
def find_playlist_by_name (listing : List (String × String)) (name : String) :
    Option String :=
  (listing.find? (fun pl =>
    Integrations.sanitize_filename pl.2 == Integrations.sanitize_filename name)).map Prod.fst

/-- The playlist-resolution head of add_playlists_and_tracks_from_json
    (tidal.py lines 1044-1065, spotify.py lines 512-519): use the id cached in
    the job document when truthy, else look the name up in the listing, else
    fall back to creation (created is what the create call returned, None on
    failure, upon which the playlist is skipped).  Returns the resolved id and
    whether a creation happened. -/
def resolve_playlist_id (cached : Option String) (listing : List (String × String))
    (name : String) (created : Option String) : Option (String × Bool) :=
  if optTruthy cached then some (cached.getD "", false)
  else
    match find_playlist_by_name listing name with
    | some pid => some (pid, false)
    | none =>
      match created with
      | some pid => some (pid, true)
      | none => none

end Tidal

/-! ## Resilient call layer. -/

namespace Tidal

/-- tidal.py module constants (lines 30-33). -/
def _MAX_RETRIES : Nat := 2

/-- Base backoff delay in seconds. -/
def _BASE_BACKOFF : ℚ := 15

/-- Backoff cap in seconds. -/
def _MAX_BACKOFF : ℚ := 600

/-- One observed HTTP response of _request_with_retries: either the requests
    call raised (isExn), or a status with the rate-limit headers already
    parsed (rlParseError models the except branch of
    _compute_rate_limit_delay; retryAfter is the Retry-After header as a
    number, none when the header is absent). -/
structure TResp where
  isExn : Bool
  status : Nat
  retryAfter : Option ℚ
  rlParseError : Bool
  rlRemaining : Int
  rlRequested : Int
  rlReplenish : ℚ
deriving DecidableEq

/-- _compute_rate_limit_delay from src/integrations/tidal.py (lines 381-391):
    token-bucket estimate from the X-RateLimit headers, else the Retry-After
    header (default 0), and 0 on any parse error. -/
def _compute_rate_limit_delay (r : TResp) : ℚ :=
  if r.rlParseError then 0
  else if r.rlRemaining < r.rlRequested ∧ 0 < r.rlReplenish then
    ((r.rlRequested - r.rlRemaining : Int) : ℚ) / r.rlReplenish
  else r.retryAfter.getD 0

/-- The pre-jitter 429 wait of _request_with_retries (lines 422-431): the
    Retry-After value when present, otherwise the computed delay, falling back
    to exponential backoff when that is not positive; the result is then
    multiplied by the jitter drawn from uniform(0.8, 1.5). -/
def tidal429Wait (r : TResp) (attempt : Nat) (jit : ℚ) : ℚ :=
  (match r.retryAfter with
   | some n => n
   | none =>
     let d := _compute_rate_limit_delay r
     if d ≤ 0 then min (_BASE_BACKOFF * 2 ^ (attempt - 1)) _MAX_BACKOFF else d) * jit

/-- Events of one logical _request_with_retries call: an HTTP request at a
    given attempt number, a sleep of a computed duration, a token refresh. -/
inductive REv
  | req (attempt : Nat)
  | slp (wait : ℚ)
  | refreshTok
deriving DecidableEq

/-- Outcome of one logical call. -/
inductive ROut
  | ok (attempt : Nat)
  | raisedExn
  | raisedStatus (status : Nat)
  | raisedBudget
deriving DecidableEq

/-- The retry loop of _request_with_retries (lines 393-464), one constructor
    level per loop iteration; responses and jitter draws are indexed by the
    attempt number; fuel counts the remaining loop iterations (the loop runs
    attempts 1 .. _MAX_RETRIES + 1) and the fuel-exhausted case is the final
    resp.raise_for_status() after the loop. -/
def runTidalGo (resps : Nat → TResp) (jit : Nat → ℚ) (hasRT : Bool) :
    Nat → Nat → ℚ → ROut × List REv
  | 0, a, _ =>
    if 400 ≤ (resps (a - 1)).status ∧ (resps (a - 1)).status < 600 then
      (ROut.raisedStatus (resps (a - 1)).status, [])
    else (ROut.ok (a - 1), [])
  | fuel + 1, a, total =>
    if (resps a).isExn then
      if a = _MAX_RETRIES + 1 then (ROut.raisedExn, [REv.req a])
      else
        ((runTidalGo resps jit hasRT fuel (a + 1)
            (total + min (_BASE_BACKOFF * 2 ^ (a - 1)) _MAX_BACKOFF * jit a)).1,
         REv.req a :: REv.slp (min (_BASE_BACKOFF * 2 ^ (a - 1)) _MAX_BACKOFF * jit a) ::
           (runTidalGo resps jit hasRT fuel (a + 1)
             (total + min (_BASE_BACKOFF * 2 ^ (a - 1)) _MAX_BACKOFF * jit a)).2)
    else if (resps a).status = 401 ∧ hasRT = true then
      ((runTidalGo resps jit hasRT fuel (a + 1) total).1,
       REv.req a :: REv.refreshTok :: (runTidalGo resps jit hasRT fuel (a + 1) total).2)
    else if (resps a).status = 429 then
      if 600 < total + tidal429Wait (resps a) a (jit a) then
        (ROut.raisedBudget, [REv.req a, REv.slp (tidal429Wait (resps a) a (jit a))])
      else
        ((runTidalGo resps jit hasRT fuel (a + 1)
            (total + tidal429Wait (resps a) a (jit a))).1,
         REv.req a :: REv.slp (tidal429Wait (resps a) a (jit a)) ::
           (runTidalGo resps jit hasRT fuel (a + 1)
             (total + tidal429Wait (resps a) a (jit a))).2)
    else if 500 ≤ (resps a).status ∧ (resps a).status < 600 then
      ((runTidalGo resps jit hasRT fuel (a + 1)
          (total + min _MAX_BACKOFF (_BASE_BACKOFF * 2 ^ (a - 1)) * jit a)).1,
       REv.req a :: REv.slp (min _MAX_BACKOFF (_BASE_BACKOFF * 2 ^ (a - 1)) * jit a) ::
         (runTidalGo resps jit hasRT fuel (a + 1)
           (total + min _MAX_BACKOFF (_BASE_BACKOFF * 2 ^ (a - 1)) * jit a)).2)
    else if 400 ≤ (resps a).status ∧ (resps a).status < 600 then
      (ROut.raisedStatus (resps a).status, [REv.req a])
    else (ROut.ok a, [REv.req a])

/-- _request_with_retries: run the loop from attempt 1 with zero accumulated
    wait; hasRT states whether _token_data carries a refresh token. -/
def _request_with_retries (resps : Nat → TResp) (jit : Nat → ℚ) (hasRT : Bool) :
    ROut × List REv :=
  runTidalGo resps jit hasRT (_MAX_RETRIES + 1) 1 0

/-- Number of HTTP requests a trace contains. -/
def countReq (evs : List REv) : Nat :=
  evs.countP (fun e => match e with | REv.req _ => true | _ => false)

end Tidal

namespace Spotify

/-- spotify.py module constants (lines 54-56). -/
def _MAX_RETRIES : Nat := 5

/-- Base backoff delay in seconds. -/
def _BASE_BACKOFF : ℚ := 1

/-- Backoff cap in seconds. -/
def _MAX_BACKOFF : ℚ := 60

/-- Observed outcome of one attempt of the wrapped spotipy call: success, or a
    SpotifyException with its http_status and parsed
    int(headers.get("Retry-After", 1)). -/
structure SCall where
  raised : Bool
  status : Nat
  retryAfter : Int
deriving DecidableEq

/-- The 429 backoff window of _retry_spotify_call (lines 84-89):
    min(_MAX_BACKOFF, _BASE_BACKOFF * 2^(attempt-1)) + retry_after; the wait
    is then drawn from uniform(0, window). -/
def spotify429Window (attempt : Nat) (retryAfter : Int) : ℚ :=
  min _MAX_BACKOFF (_BASE_BACKOFF * 2 ^ (attempt - 1)) + (retryAfter : ℚ)

/-- The 5xx backoff window (lines 98-100). -/
def spotify5xxWindow (attempt : Nat) : ℚ :=
  min _MAX_BACKOFF (_BASE_BACKOFF * 2 ^ (attempt - 1))

/-- _retry_spotify_call from src/integrations/spotify.py (lines 78-110): the
    for-loop over attempts 1 .. _MAX_RETRIES retries 429s and 5xx with a
    uniform(0, window) wait (modelled as u attempt * window with
    0 ≤ u attempt ≤ 1), re-raises other statuses, and after the loop issues
    one final unguarded call whose exception propagates; fuel counts the
    remaining loop iterations. -/
def runSpotifyGo (calls : Nat → SCall) (u : Nat → ℚ) :
    Nat → Nat → Tidal.ROut × List Tidal.REv
  | 0, a =>
    if (calls a).raised then (Tidal.ROut.raisedStatus (calls a).status, [Tidal.REv.req a])
    else (Tidal.ROut.ok a, [Tidal.REv.req a])
  | fuel + 1, a =>
    if !(calls a).raised then (Tidal.ROut.ok a, [Tidal.REv.req a])
    else if (calls a).status = 429 then
      ((runSpotifyGo calls u fuel (a + 1)).1,
       Tidal.REv.req a :: Tidal.REv.slp (u a * spotify429Window a (calls a).retryAfter) ::
         (runSpotifyGo calls u fuel (a + 1)).2)
    else if 500 ≤ (calls a).status ∧ (calls a).status < 600 then
      ((runSpotifyGo calls u fuel (a + 1)).1,
       Tidal.REv.req a :: Tidal.REv.slp (u a * spotify5xxWindow a) ::
         (runSpotifyGo calls u fuel (a + 1)).2)
    else (Tidal.ROut.raisedStatus (calls a).status, [Tidal.REv.req a])

/-- One logical _retry_spotify_call invocation. -/
def _retry_spotify_call (calls : Nat → SCall) (u : Nat → ℚ) :
    Tidal.ROut × List Tidal.REv :=
  runSpotifyGo calls u _MAX_RETRIES 1

end Spotify

/-! ## Verification-side predicates and concrete sample inputs. -/

/-- No two adjacent spaces (the post-condition of collapsing space runs). -/
def noDbl : List Char → Prop
  | c :: d :: rest => ¬(c = ' ' ∧ d = ' ') ∧ noDbl (d :: rest)
  | _ => True

/-- File-system events (writes and renames), as opposed to searches. -/
def isFsEv : Ev → Bool
  | Ev.write _ => true
  | Ev.rename _ _ => true
  | Ev.search _ => false

/-- A rename event? -/
def isRenameEv : Ev → Bool
  | Ev.rename _ _ => true
  | _ => false

/-- C2's claimed persistence discipline for the checkpoint file at ckpt:
    every persisted state reaches ckpt only through an atomic rename of a
    temporary file, never through a direct write to ckpt itself. -/
@[reducible] def perUnitTempRename (evs : List Ev) (ckpt : String) : Prop :=
  ∀ e ∈ evs, e ≠ Ev.write ckpt

/-- Two unresolved tracks used to exercise the checkpoint-write trace. -/
def cexTrack1 : STrack := ⟨"Alpha", "X", some "sp1", none, none⟩

/-- Second unresolved track. -/
def cexTrack2 : STrack := ⟨"Beta", "Y", some "sp2", none, none⟩

/-- A one-playlist document with two tracks to resolve. -/
def cexDocC2 : SDoc := ⟨[⟨"P", [cexTrack1, cexTrack2]⟩]⟩

/-- A search oracle that succeeds immediately at every query. -/
def cexOracleHit : String → SResp := fun _ => SResp.doc [⟨"tracks", some "T1"⟩]

/-- A track already resolved on both services. -/
def cexDupA : STrack := ⟨"Gamma", "Z", some "S1", some "T1", none⟩

/-- A second occurrence of the same tidal id, spotify side unresolved. -/
def cexDupB : STrack := ⟨"Gamma", "Z", none, some "T1", none⟩

/-- Document in which the same track appears resolved and unresolved. -/
def cexDocC7 : SDoc := ⟨[⟨"P", [cexDupA, cexDupB]⟩]⟩

/-- A Spotify search oracle that would raise if consulted. -/
def cexSpotOracle : String → SpotSearch := fun _ => SpotSearch.err

/-- Level-resolution oracle of the specification scenario: only the level-3
    query "Track A" returns a track. -/
def c3oracle : String → SResp :=
  fun q => if q == "Track A" then SResp.doc [⟨"tracks", some "T42"⟩] else SResp.doc []

/-- A response stream that is rate-limited with Retry-After 10 forever. -/
def resp429 : Nat → Tidal.TResp := fun _ => ⟨false, 429, some 10, false, 0, 1, 0⟩

/-- A jitter stream pinned at the lower end 0.8 of uniform(0.8, 1.5). -/
def jitter45 : Nat → ℚ := fun _ => 4 / 5

/-- A response stream that is auth-expired (401) forever. -/
def resp401 : Nat → Tidal.TResp := fun _ => ⟨false, 401, none, false, 0, 1, 0⟩

/-- A unit jitter stream. -/
def jitter1 : Nat → ℚ := fun _ => 1

/-! ## Helper lemmas. -/

theorem newIds_eq_nil_of_subset {desired existing : List String}
    (h : ∀ t ∈ desired, t ∈ existing) : newIds desired existing = [] := by
  unfold newIds
  rw [List.filter_eq_nil_iff]
  intro t ht
  simp [List.contains]
  exact h t ht

theorem newIds_remoteAfterRun (desired existing : List String) :
    newIds desired (remoteAfterRun desired existing) = [] := by
  apply newIds_eq_nil_of_subset
  intro t ht
  unfold remoteAfterRun
  by_cases hx : t ∈ existing
  · exact List.mem_append_left _ hx
  · refine List.mem_append_right _ ?_
    unfold newIds
    rw [List.mem_filter]
    refine ⟨ht, ?_⟩
    simp [List.contains]
    exact hx

/-! ## Claims. -/

/-- C1: when the delta (desired identifiers minus existing remote membership)
    is empty, zero addition calls are issued — the skip branch, not a vacuous
    re-add; consequently a second run over the state produced by a successful
    first run (remote membership now containing the whole delta) issues zero
    addition calls, for any batch size (100 for Spotify, 20 for TIDAL). -/
theorem claim1_reconciliation_idempotent :
    (∀ (bs : Nat) (desired existing : List String),
      (∀ t ∈ desired, t ∈ existing) → additionCalls bs desired existing = []) ∧
    (∀ (bs : Nat) (desired existing : List String),
      additionCalls bs desired (remoteAfterRun desired existing) = []) := by
  constructor
  · intro bs desired existing h
    unfold additionCalls
    simp [newIds_eq_nil_of_subset h]
  · intro bs desired existing
    unfold additionCalls
    simp [newIds_remoteAfterRun]

/-- Witness for C1 at concrete inputs: desired ⊆ existing forces zero calls,
    and a repeated run after the first is a no-op. -/
theorem claim1_witness :
    additionCalls 20 ["a", "b"] ["b", "c", "a"] = [] ∧
    additionCalls 20 ["a", "x"] (remoteAfterRun ["a", "x"] ["a"]) = [] :=
  ⟨claim1_reconciliation_idempotent.1 20 ["a", "b"] ["b", "c", "a"] (by decide),
   claim1_reconciliation_idempotent.2 20 ["a", "x"] ["a"]⟩

theorem squeeze_head : ∀ (d : Char) (rest : List Char),
    ∃ t, squeezeSpaces (d :: rest) = d :: t
  | _, [] => ⟨[], rfl⟩
  | d, e :: rs => by
    by_cases h : d = ' ' ∧ e = ' '
    · obtain ⟨t, ht⟩ := squeeze_head e rs
      refine ⟨t, ?_⟩
      simp only [squeezeSpaces, if_pos h]
      rw [ht, h.1, h.2]
    · exact ⟨squeezeSpaces (e :: rs), by simp only [squeezeSpaces, if_neg h]⟩

theorem squeeze_sublist : ∀ l : List Char, List.Sublist (squeezeSpaces l) l
  | [] => List.Sublist.refl _
  | [c] => List.Sublist.refl _
  | c :: d :: rest => by
    by_cases h : c = ' ' ∧ d = ' '
    · simp only [squeezeSpaces, if_pos h]
      exact (squeeze_sublist (d :: rest)).cons c
    · simp only [squeezeSpaces, if_neg h]
      exact (squeeze_sublist (d :: rest)).cons₂ c

theorem squeeze_noDbl : ∀ l : List Char, noDbl (squeezeSpaces l)
  | [] => trivial
  | [c] => by simp [squeezeSpaces, noDbl]
  | c :: d :: rest => by
    by_cases h : c = ' ' ∧ d = ' '
    · simpa only [squeezeSpaces, if_pos h] using squeeze_noDbl (d :: rest)
    · obtain ⟨t, ht⟩ := squeeze_head d rest
      have hn := squeeze_noDbl (d :: rest)
      simp only [squeezeSpaces, if_neg h]
      rw [ht] at hn ⊢
      exact ⟨h, hn⟩

theorem squeeze_eq_self : ∀ l : List Char, noDbl l → squeezeSpaces l = l
  | [], _ => rfl
  | [_], _ => rfl
  | c :: d :: rest, h => by
    have h' : ¬(c = ' ' ∧ d = ' ') ∧ noDbl (d :: rest) := h
    simp only [squeezeSpaces, if_neg h'.1]
    rw [squeeze_eq_self (d :: rest) h'.2]

theorem noDbl_tail : ∀ {c : Char} {l : List Char}, noDbl (c :: l) → noDbl l
  | _, [], _ => trivial
  | _, _ :: _, h => h.2

theorem noDbl_dropWhile (p : Char → Bool) :
    ∀ l : List Char, noDbl l → noDbl (l.dropWhile p)
  | [], h => h
  | c :: rest, h => by
    rw [List.dropWhile_cons]
    by_cases hp : p c = true
    · rw [if_pos hp]
      exact noDbl_dropWhile p rest (noDbl_tail h)
    · rw [if_neg hp]
      exact h

theorem noDbl_append_left : ∀ l₁ l₂ : List Char, noDbl (l₁ ++ l₂) → noDbl l₁
  | [], _, _ => trivial
  | [_], _, _ => trivial
  | c :: d :: rest, l₂, h => by
    simp only [List.cons_append] at h
    exact ⟨h.1, noDbl_append_left (d :: rest) l₂ h.2⟩

theorem dropTrailingWs_append : ∀ l : List Char, ∃ t, l = dropTrailingWs l ++ t
  | [] => ⟨[], rfl⟩
  | c :: rest => by
    obtain ⟨t, ht⟩ := dropTrailingWs_append rest
    by_cases h : dropTrailingWs rest = [] ∧ pyIsSpace c = true
    · refine ⟨c :: rest, ?_⟩
      simp only [dropTrailingWs, if_pos h, List.nil_append]
    · refine ⟨t, ?_⟩
      simp only [dropTrailingWs, if_neg h, List.cons_append]
      exact congrArg (c :: ·) ht

theorem dropTrailingWs_idem :
    ∀ l : List Char, dropTrailingWs (dropTrailingWs l) = dropTrailingWs l
  | [] => rfl
  | c :: rest => by
    by_cases h : dropTrailingWs rest = [] ∧ pyIsSpace c = true
    · simp only [dropTrailingWs, if_pos h]
    · simp only [dropTrailingWs, if_neg h]
      rw [dropTrailingWs_idem rest]
      simp only [dropTrailingWs, if_neg h]

theorem dropWhile_head_false (p : Char → Bool) :
    ∀ (l : List Char) (c : Char) (t : List Char), l.dropWhile p = c :: t → p c = false
  | [], c, t, h => by simp at h
  | x :: xs, c, t, h => by
    rw [List.dropWhile_cons] at h
    by_cases hp : p x = true
    · rw [if_pos hp] at h
      exact dropWhile_head_false p xs c t h
    · rw [if_neg hp] at h
      injection h with h1 _
      subst h1
      simpa using hp

theorem stripEnds_idem (l : List Char) : stripEnds (stripEnds l) = stripEnds l := by
  unfold stripEnds
  cases hd : dropTrailingWs (l.dropWhile pyIsSpace) with
  | nil => simp [dropTrailingWs]
  | cons c t =>
    obtain ⟨r, hr⟩ := dropTrailingWs_append (l.dropWhile pyIsSpace)
    rw [hd] at hr
    have hc : pyIsSpace c = false := dropWhile_head_false pyIsSpace l c (t ++ r) hr
    rw [List.dropWhile_cons, hc]
    simp only [Bool.false_eq_true, if_false]
    rw [← hd, dropTrailingWs_idem]

theorem noDbl_dropTrailingWs (l : List Char) (h : noDbl l) : noDbl (dropTrailingWs l) := by
  obtain ⟨t, ht⟩ := dropTrailingWs_append l
  rw [ht] at h
  exact noDbl_append_left _ _ h

theorem noDbl_stripEnds (l : List Char) (h : noDbl l) : noDbl (stripEnds l) :=
  noDbl_dropTrailingWs _ (noDbl_dropWhile pyIsSpace l h)

theorem stripEnds_sublist (l : List Char) : List.Sublist (stripEnds l) l := by
  obtain ⟨t, ht⟩ := dropTrailingWs_append (l.dropWhile pyIsSpace)
  have h1 : List.Sublist (dropTrailingWs (l.dropWhile pyIsSpace)) (l.dropWhile pyIsSpace) := by
    conv_rhs => rw [ht]
    exact List.sublist_append_left _ _
  exact h1.trans (List.dropWhile_sublist _)

theorem badToSpace_idem (c : Char) :
    Integrations.badToSpace (Integrations.badToSpace c) = Integrations.badToSpace c := by
  unfold Integrations.badToSpace
  by_cases h : (pyWordChar c || c = '-' || c = ' ') = true
  · simp [h]
  · simp only [h, if_false, Bool.false_eq_true]
    decide

theorem map_eq_self_of_fixed {f : Char → Char} :
    ∀ l : List Char, (∀ c ∈ l, f c = c) → l.map f = l
  | [], _ => rfl
  | c :: rest, h => by
    simp only [List.map_cons]
    rw [h c (List.mem_cons_self c rest),
      map_eq_self_of_fixed rest (fun x hx => h x (List.mem_cons_of_mem c hx))]

theorem sanitize_chars_fixed (s : String) :
    ∀ c ∈ (Integrations.sanitize_filename s).data, Integrations.badToSpace c = c := by
  intro c hc
  unfold Integrations.sanitize_filename at hc
  have h1 : c ∈ squeezeSpaces (s.data.map Integrations.badToSpace) :=
    (stripEnds_sublist _).subset hc
  have h2 : c ∈ s.data.map Integrations.badToSpace :=
    (squeeze_sublist _).subset h1
  obtain ⟨c₀, _, hc₀⟩ := List.mem_map.mp h2
  rw [← hc₀]
  exact badToSpace_idem c₀

theorem sanitize_noDbl (s : String) : noDbl (Integrations.sanitize_filename s).data :=
  noDbl_stripEnds _ (squeeze_noDbl _)

theorem integrations_sanitize_idem (s : String) :
    Integrations.sanitize_filename (Integrations.sanitize_filename s) =
      Integrations.sanitize_filename s := by
  have h1 : ((Integrations.sanitize_filename s).data).map Integrations.badToSpace =
      (Integrations.sanitize_filename s).data :=
    map_eq_self_of_fixed _ (sanitize_chars_fixed s)
  have h2 : squeezeSpaces (Integrations.sanitize_filename s).data =
      (Integrations.sanitize_filename s).data :=
    squeeze_eq_self _ (sanitize_noDbl s)
  have h3 : stripEnds (Integrations.sanitize_filename s).data =
      (Integrations.sanitize_filename s).data := by
    show stripEnds (stripEnds (squeezeSpaces (s.data.map Integrations.badToSpace))) = _
    rw [stripEnds_idem]
    exact rfl
  show (⟨stripEnds (squeezeSpaces
      (((Integrations.sanitize_filename s).data).map Integrations.badToSpace))⟩ : String) =
    Integrations.sanitize_filename s
  rw [h1, h2, h3]

theorem helpers_sanitize_idem (s : String) :
    Helpers.sanitize_filename (Helpers.sanitize_filename s) = Helpers.sanitize_filename s := by
  have hu : Helpers.badChar '_' = false := by decide
  unfold Helpers.sanitize_filename
  simp only [List.map_map]
  congr 1
  apply List.map_congr_left
  intro c _
  simp only [Function.comp]
  by_cases h : Helpers.badChar c = true
  · simp [h, hu]
  · simp [h]

/-- C10: sanitize_filename is idempotent — both the integrations variant
    (replace non-word characters by spaces, collapse runs of spaces, strip)
    and the helpers variant (replace reserved characters by underscores);
    consequently a playlist created under a sanitized name is found again by
    every later lookup, which sanitizes both sides before comparing. -/
theorem claim10_sanitize_idempotent :
    (∀ s, Integrations.sanitize_filename (Integrations.sanitize_filename s) =
      Integrations.sanitize_filename s) ∧
    (∀ s, Helpers.sanitize_filename (Helpers.sanitize_filename s) =
      Helpers.sanitize_filename s) ∧
    (∀ pid name : String,
      Tidal.find_playlist_by_name [(pid, Integrations.sanitize_filename name)] name =
        some pid) := by
  refine ⟨integrations_sanitize_idem, helpers_sanitize_idem, ?_⟩
  intro pid name
  unfold Tidal.find_playlist_by_name
  simp [List.find?_cons, integrations_sanitize_idem]

/-- C8 counterexample: playlist names do NOT compare case-insensitively.
    sanitize_filename (the normalization both find_playlist_by_name variants
    apply to both sides) preserves case, so a listing entry named "abc" is not
    found when the requested name is "ABC" — under the claim it would be. -/
theorem claim8_counterexample :
    Tidal.find_playlist_by_name [("id1", "abc")] "ABC" = none ∧
    Integrations.sanitize_filename "ABC" ≠ Integrations.sanitize_filename "abc" := by
  refine ⟨by decide, by decide⟩

/-- C8 (amended): the engine first uses the identifier cached in the job
    document (when truthy); otherwise it scans the user's playlist listing
    and takes the first name that matches under sanitize_filename
    normalization — punctuation replaced by spaces, space runs collapsed,
    ends stripped, but case-SENSITIVE; only when no entry matches does it
    fall back to the creation result and record it.  The final conjunct
    shows the normalization at work: "My  List?" finds "My List", while
    "ABC" does not find "abc". -/
theorem claim8_amended :
    (∀ (cached : Option String) (listing : List (String × String)) (name freshId : String),
      optTruthy cached = true →
      Tidal.resolve_playlist_id cached listing name (some freshId) =
        some (cached.getD "", false)) ∧
    (∀ (listing : List (String × String)) (name pid : String) (created : Option String),
      Tidal.find_playlist_by_name listing name = some pid →
      Tidal.resolve_playlist_id none listing name created = some (pid, false)) ∧
    (∀ (listing : List (String × String)) (name freshId : String),
      Tidal.find_playlist_by_name listing name = none →
      Tidal.resolve_playlist_id none listing name (some freshId) =
        some (freshId, true)) ∧
    Tidal.find_playlist_by_name [("id1", "My List")] "My  List?" = some "id1" := by
  refine ⟨?_, ?_, ?_, by decide⟩
  · intro cached listing name freshId h
    unfold Tidal.resolve_playlist_id
    rw [if_pos h]
  · intro listing name pid created h
    unfold Tidal.resolve_playlist_id
    rw [if_neg (by simp [optTruthy]), h]
  · intro listing name freshId h
    unfold Tidal.resolve_playlist_id
    rw [if_neg (by simp [optTruthy]), h]

/-- Witness for C8 (amended) at concrete inputs: cached id used directly,
    normalized lookup hit used without creation, and creation recorded only
    when no listing entry matches. -/
theorem claim8_witness :
    Tidal.resolve_playlist_id (some "cached1") [] "X" (some "new1") =
      some ("cached1", false) ∧
    Tidal.resolve_playlist_id none [("id1", "My List")] "My  List?" (some "new1") =
      some ("id1", false) ∧
    Tidal.resolve_playlist_id none [] "X" (some "new1") = some ("new1", true) :=
  ⟨claim8_amended.1 (some "cached1") [] "X" "new1" (by decide),
   claim8_amended.2.1 [("id1", "My List")] "My  List?" "id1" (some "new1") (by decide),
   claim8_amended.2.2.1 [] "X" "new1" (by decide)⟩

theorem findLoop_early_exact (minSim : ℚ) (ns : String) (asOpt : Option String)
    (ts : String) (c : PlexTrack) (hc : (ns == trackTitleL c) = true) :
    ∀ (pre rest : List PlexTrack) (acc : Option PlexTrack × ℚ),
      (∀ d ∈ pre, earlyHit ns asOpt ts d = false) →
      findLoop minSim ns asOpt ts (pre ++ c :: rest) acc = some c
  | [], rest, acc, _ => by
    simp only [List.nil_append]
    unfold findLoop
    rw [if_pos hc]
  | d :: pre', rest, acc, h => by
    have hd := h d (List.mem_cons_self d pre')
    unfold earlyHit at hd
    have h1 : (ns == trackTitleL d) = false := (Bool.or_eq_false_iff.mp hd).1
    have h2 : strat2Hit asOpt ts d = false := (Bool.or_eq_false_iff.mp hd).2
    simp only [List.cons_append]
    unfold findLoop
    rw [if_neg (by simp [h1]), if_neg (by simp [h2])]
    exact findLoop_early_exact minSim ns asOpt ts c hc pre' rest _
      (fun x hx => h x (List.mem_cons_of_mem d hx))

theorem findLoop_below_floor (minSim : ℚ) (ns : String) (asOpt : Option String)
    (ts : String) :
    ∀ (tracks : List PlexTrack) (acc : Option PlexTrack × ℚ),
      (∀ tr ∈ tracks, earlyHit ns asOpt ts tr = false ∧
        _similarity_score ns (trackTitleL tr) < minSim ∧
        ((optTruthy asOpt && !(ts == "")) = true → combinedScore asOpt ts tr < minSim)) →
      findLoop minSim ns asOpt ts tracks acc = if minSim ≤ acc.2 then acc.1 else none
  | [], acc, _ => rfl
  | tr :: rest, acc, h => by
    obtain ⟨he, hs3, hcomb⟩ := h tr (List.mem_cons_self tr rest)
    unfold earlyHit at he
    have h1 : (ns == trackTitleL tr) = false := (Bool.or_eq_false_iff.mp he).1
    have h2 : strat2Hit asOpt ts tr = false := (Bool.or_eq_false_iff.mp he).2
    unfold findLoop
    rw [if_neg (by simp [h1]), if_neg (by simp [h2])]
    have e1 : (if acc.2 < _similarity_score ns (trackTitleL tr) ∧
        minSim ≤ _similarity_score ns (trackTitleL tr)
        then (some tr, _similarity_score ns (trackTitleL tr)) else acc) = acc :=
      if_neg (fun hx => absurd hx.2 (not_le.mpr hs3))
    simp only [e1]
    by_cases hat : (optTruthy asOpt && !(ts == "")) = true
    · rw [if_pos hat]
      have e2 : (if acc.2 < combinedScore asOpt ts tr ∧ minSim ≤ combinedScore asOpt ts tr
          then (some tr, combinedScore asOpt ts tr) else acc) = acc :=
        if_neg (fun hx => absurd hx.2 (not_le.mpr (hcomb hat)))
      rw [e2]
      exact findLoop_below_floor minSim ns asOpt ts rest acc
        (fun x hx => h x (List.mem_cons_of_mem tr hx))
    · rw [if_neg hat]
      exact findLoop_below_floor minSim ns asOpt ts rest acc
        (fun x hx => h x (List.mem_cons_of_mem tr hx))

/-- C5 counterexample: the exact-match strategy compares the NORMALIZED
    descriptor title against the candidate's merely lower-cased verbatim
    title.  "Song" and "Song (Live)" have the same normalized title "song",
    yet resolution returns NotFound (the raw-title similarity 8/15 is below
    the 0.6 floor and no other strategy fires), where the claim requires that
    candidate to be returned. -/
theorem claim5_counterexample :
    _normalize_track_name "Song" = _normalize_track_name "Song (Live)" ∧
    _find_best_track_match "Song" [⟨"Song (Live)", some "Band"⟩] (3 / 5) = none := by
  exact ⟨by decide, by decide⟩

/-- C5 (amended): the immediate exact-match return compares the descriptor's
    normalized title with the candidate's lower-cased VERBATIM title; when a
    candidate matches that comparison and no earlier candidate triggers an
    immediate return (exact match or the artist-containment strategy), that
    candidate is returned deterministically, regardless of every later
    candidate's similarity scores and of the threshold. -/
theorem claim5_amended (name : String) (minSim : ℚ) (pre rest : List PlexTrack)
    (c : PlexTrack)
    (hpre : ∀ d ∈ pre,
      earlyHit (_normalize_track_name name)
        (_extract_artist_and_title (_normalize_track_name name)).1
        (_extract_artist_and_title (_normalize_track_name name)).2 d = false)
    (hc : pyLower c.title = _normalize_track_name name) :
    _find_best_track_match name (pre ++ c :: rest) minSim = some c := by
  have hcb : ((_normalize_track_name name) == trackTitleL c) = true := by
    unfold trackTitleL
    rw [hc]
    exact beq_self_eq_true _
  exact findLoop_early_exact minSim (_normalize_track_name name)
    (_extract_artist_and_title (_normalize_track_name name)).1
    (_extract_artist_and_title (_normalize_track_name name)).2 c hcb pre rest (none, 0) hpre

/-- Witness for C5 (amended): a lower-case candidate titled exactly like the
    normalized descriptor is returned. -/
theorem claim5_witness :
    _find_best_track_match "Song" ([] ++ (⟨"song", some "Band"⟩ : PlexTrack) :: []) (3 / 5) =
      some ⟨"song", some "Band"⟩ :=
  claim5_amended "Song" (3 / 5) [] [] ⟨"song", some "Band"⟩
    (fun d hd => absurd hd (List.not_mem_nil d)) (by decide)

/-- C6: resolving descriptor title "01 - Song (Live)" (artist "Band") against
    a local index holding the bare "Song" by "Band" matches that candidate —
    normalization strips the track-number prefix and the parenthesized
    qualifier, collapses whitespace and lower-cases, and the exact-match
    strategy then fires; and whenever no immediate-return strategy fires and
    every candidate's title similarity and (when artist text is available)
    combined similarity stay below the min_similarity floor, the resolver
    returns none (NotFound). -/
theorem claim6_normalization_scenario :
    (_normalize_track_name "01 - Song (Live)" = "song" ∧
     _find_best_track_match "01 - Song (Live)" [⟨"Song", some "Band"⟩] (3 / 5) =
       some ⟨"Song", some "Band"⟩) ∧
    (∀ (name : String) (tracks : List PlexTrack) (minSim : ℚ),
      (∀ tr ∈ tracks,
        earlyHit (_normalize_track_name name)
          (_extract_artist_and_title (_normalize_track_name name)).1
          (_extract_artist_and_title (_normalize_track_name name)).2 tr = false ∧
        _similarity_score (_normalize_track_name name) (trackTitleL tr) < minSim ∧
        ((optTruthy (_extract_artist_and_title (_normalize_track_name name)).1 &&
            !((_extract_artist_and_title (_normalize_track_name name)).2 == "")) = true →
          combinedScore (_extract_artist_and_title (_normalize_track_name name)).1
            (_extract_artist_and_title (_normalize_track_name name)).2 tr < minSim)) →
      _find_best_track_match name tracks minSim = none) := by
  refine ⟨⟨by decide, by decide⟩, ?_⟩
  intro name tracks minSim h
  unfold _find_best_track_match
  rw [findLoop_below_floor minSim (_normalize_track_name name)
    (_extract_artist_and_title (_normalize_track_name name)).1
    (_extract_artist_and_title (_normalize_track_name name)).2 tracks (none, 0) h]
  simp

/-- Witness for C6's below-floor branch at a concrete input: "Xyzzy" against
    the index containing only "Song" by "Band" yields none. -/
theorem claim6_witness :
    _find_best_track_match "Xyzzy" [⟨"Song", some "Band"⟩] (3 / 5) = none :=
  claim6_normalization_scenario.2 "Xyzzy" [⟨"Song", some "Band"⟩] (3 / 5) (by decide)

theorem searchGo_hit_at (oracle : String → SResp) (title artist : String)
    (k : Nat) (id : String)
    (hhit : respHit (oracle (levelQuery title artist k)) = some id) :
    ∀ (pre post : List Nat) (fields : Option String × Option Prov),
      (∀ l ∈ pre, respHit (oracle (levelQuery title artist l)) = none ∧
        oracle (levelQuery title artist l) ≠ SResp.malformed) →
      searchGo oracle title artist (pre ++ k :: post) fields =
        ((some id, some (Prov.lvl k)),
         (pre ++ [k]).map (fun l => Ev.search (levelQuery title artist l)))
  | [], post, fields, _ => by
    simp only [List.nil_append]
    unfold searchGo
    cases ho : oracle (levelQuery title artist k) with
    | malformed => rw [ho] at hhit; simp [respHit] at hhit
    | err => rw [ho] at hhit; simp [respHit] at hhit
    | doc items =>
      rw [ho] at hhit
      simp only [respHit] at hhit
      simp [ho, hhit]
  | l :: pre', post, fields, h => by
    obtain ⟨hl1, hl2⟩ := h l (List.mem_cons_self l pre')
    simp only [List.cons_append]
    unfold searchGo
    cases ho : oracle (levelQuery title artist l) with
    | malformed => exact absurd ho hl2
    | err =>
      simp only [ho]
      rw [searchGo_hit_at oracle title artist k id hhit pre' post (none, some Prov.null)
        (fun x hx => h x (List.mem_cons_of_mem l hx))]
      simp
    | doc items =>
      rw [ho] at hl1
      simp only [respHit] at hl1
      simp only [ho, hl1]
      rw [searchGo_hit_at oracle title artist k id hhit pre' post (none, some Prov.null)
        (fun x hx => h x (List.mem_cons_of_mem l hx))]
      simp

theorem searchGo_trace_shape (oracle : String → SResp) (title artist : String) :
    ∀ (levels : List Nat) (fields : Option String × Option Prov),
      ∃ n, n ≤ levels.length ∧
        (searchGo oracle title artist levels fields).2 =
          (levels.take n).map (fun l => Ev.search (levelQuery title artist l))
  | [], fields => ⟨0, by simp [searchGo]⟩
  | l :: ls, fields => by
    unfold searchGo
    cases ho : oracle (levelQuery title artist l) with
    | malformed =>
      exact ⟨1, by simp, by simp [ho]⟩
    | err =>
      obtain ⟨n, hn, he⟩ := searchGo_trace_shape oracle title artist ls (none, some Prov.null)
      exact ⟨n + 1, by simpa using hn, by simp [ho, he]⟩
    | doc items =>
      cases hb : (firstTracksItem items).bind (fun it => it.id) with
      | some tid => exact ⟨1, by simp, by simp [ho, hb]⟩
      | none =>
        obtain ⟨n, hn, he⟩ := searchGo_trace_shape oracle title artist ls (none, some Prov.null)
        exact ⟨n + 1, by simpa using hn, by simp [ho, hb, he]⟩

theorem tidalSearch_hit (oracle : String → SResp) (title artist : String)
    (k : Nat) (id : String) (post : List Nat)
    (hdec : List.range 5 = List.range k ++ k :: post)
    (hbefore : ∀ l, l < k → respHit (oracle (levelQuery title artist l)) = none ∧
      oracle (levelQuery title artist l) ≠ SResp.malformed)
    (hhit : respHit (oracle (levelQuery title artist k)) = some id) :
    tidalSearchLevels oracle title artist =
      ((some id, some (Prov.lvl k)),
       (List.range (k + 1)).map (fun l => Ev.search (levelQuery title artist l))) := by
  unfold tidalSearchLevels
  rw [hdec, searchGo_hit_at oracle title artist k id hhit (List.range k) post (none, none)
    (fun l hl => hbefore l (List.mem_range.mp hl))]
  rw [← List.range_succ]

/-- C3: for an unresolved track the remote-search resolver issues at most one
    search per simplification level and in increasing order 0,1,2,3,4 (the
    query trace is always the image of an initial segment of [0,1,2,3,4]);
    and when levels below k yield no track result (and no malformed response)
    while level k's search has a first tracks-typed result id, the loop stops
    at level k, accepts that id, records tidal_search_level = k, and the trace
    is exactly the searches of levels 0..k — level k+1 and beyond are never
    attempted. -/
theorem claim3_level_search (oracle : String → SResp) (title artist : String) :
    (∃ n, n ≤ 5 ∧ (tidalSearchLevels oracle title artist).2 =
      ((List.range 5).take n).map (fun l => Ev.search (levelQuery title artist l))) ∧
    (∀ (k : Nat) (id : String), k < 5 →
      (∀ l, l < k → respHit (oracle (levelQuery title artist l)) = none ∧
        oracle (levelQuery title artist l) ≠ SResp.malformed) →
      respHit (oracle (levelQuery title artist k)) = some id →
      tidalSearchLevels oracle title artist =
        ((some id, some (Prov.lvl k)),
         (List.range (k + 1)).map (fun l => Ev.search (levelQuery title artist l)))) := by
  constructor
  · simpa using searchGo_trace_shape oracle title artist (List.range 5) (none, none)
  · intro k id hk hbefore hhit
    interval_cases k
    · exact tidalSearch_hit oracle title artist 0 id [1, 2, 3, 4] rfl hbefore hhit
    · exact tidalSearch_hit oracle title artist 1 id [2, 3, 4] rfl hbefore hhit
    · exact tidalSearch_hit oracle title artist 2 id [3, 4] rfl hbefore hhit
    · exact tidalSearch_hit oracle title artist 3 id [4] rfl hbefore hhit
    · exact tidalSearch_hit oracle title artist 4 id [] rfl hbefore hhit

/-- Witness for C3, the specification's own scenario: searching
    {title: "Track: Remix Version", artist: "A, B"} against an oracle that
    fails below level 3 and succeeds at the level-3 query "Track A" records
    provenance level 3, accepts the top result, and never issues level 4. -/
theorem claim3_witness :
    tidalSearchLevels c3oracle "Track: Remix Version" "A, B" =
      ((some "T42", some (Prov.lvl 3)),
       [Ev.search "Track Remix Version A, B", Ev.search "Track Remix Version A, B",
        Ev.search "Track A, B", Ev.search "Track A"]) := by
  rw [(claim3_level_search c3oracle "Track: Remix Version" "A, B").2 3 "T42" (by decide)
    (by decide) (by decide)]
  decide

theorem searchGo_no_fs (oracle : String → SResp) (title artist : String) :
    ∀ (levels : List Nat) (fields : Option String × Option Prov),
      ((searchGo oracle title artist levels fields).2).filter isFsEv = []
  | [], _ => rfl
  | l :: ls, fields => by
    unfold searchGo
    cases ho : oracle (levelQuery title artist l) with
    | malformed => simp [ho, isFsEv]
    | err => simp [ho, isFsEv, searchGo_no_fs oracle title artist ls (none, some Prov.null)]
    | doc items =>
      cases hb : (firstTracksItem items).bind (fun it => it.id) with
      | some tid => simp [ho, hb, isFsEv]
      | none =>
        simp [ho, hb, isFsEv, searchGo_no_fs oracle title artist ls (none, some Prov.null)]

theorem processTidalTrack_fs (oracle : String → SResp) (part : String)
    (m : List (String × String)) (tr : STrack) :
    ((processTidalTrack oracle part m tr).2.2).filter isFsEv = [] ∨
    ((processTidalTrack oracle part m tr).2.2).filter isFsEv = [Ev.write part] := by
  unfold processTidalTrack
  by_cases h1 : (!(optTruthy tr.trackUri_spotify) || optTruthy tr.trackUri_tidal) = true
  · rw [if_pos h1]
    left
    rfl
  · rw [if_neg h1]
    cases hm : (dictGet m (tr.trackUri_spotify.getD "")).bind
        (fun v => if v == "" then none else some v) with
    | some tid =>
      right
      rfl
    | none =>
      right
      simp [List.filter_append, isFsEv,
        searchGo_no_fs oracle tr.trackName tr.artistName (List.range 5) (none, none),
        tidalSearchLevels]

theorem augTidalTracks_fs (oracle : String → SResp) (part : String) :
    ∀ (ts : List STrack) (m : List (String × String)),
      ∃ n, ((augTidalTracks oracle part ts m).2.2).filter isFsEv =
        List.replicate n (Ev.write part)
  | [], _ => ⟨0, rfl⟩
  | t :: rest, m => by
    obtain ⟨n, hn⟩ :=
      augTidalTracks_fs oracle part rest (processTidalTrack oracle part m t).2.1
    unfold augTidalTracks
    rcases processTidalTrack_fs oracle part m t with h | h
    · exact ⟨n, by simp [List.filter_append, h, hn]⟩
    · exact ⟨n + 1, by simp [List.filter_append, h, hn, List.replicate_succ]⟩

theorem augTidalPlaylists_fs (oracle : String → SResp) (part : String) :
    ∀ (pls : List SPlaylist) (m : List (String × String)),
      ∃ n, ((augTidalPlaylists oracle part pls m).2.2).filter isFsEv =
        List.replicate n (Ev.write part)
  | [], _ => ⟨0, rfl⟩
  | pl :: rest, m => by
    obtain ⟨n1, hn1⟩ := augTidalTracks_fs oracle part pl.tracks m
    obtain ⟨n2, hn2⟩ := augTidalPlaylists_fs oracle part rest
      (augTidalTracks oracle part pl.tracks m).2.1
    refine ⟨n1 + n2, ?_⟩
    show ((augTidalTracks oracle part pl.tracks m).2.2 ++
      (augTidalPlaylists oracle part rest
        (augTidalTracks oracle part pl.tracks m).2.1).2.2).filter isFsEv = _
    rw [List.filter_append, hn1, hn2, ← List.replicate_add]

/-- C2 counterexample: on a job with two units of resolution the whole
    document is written DIRECTLY (in place) to the resume/checkpoint path
    output_path + ".part" after each unit — the path the code itself reloads
    on restart — and only ONE rename happens, at job completion, moving the
    .part file onto the output path.  The claimed per-unit
    write-temporary-then-atomically-rename discipline for the checkpoint
    (under which the checkpoint path is never the target of a direct write)
    is therefore violated. -/
theorem claim2_counterexample :
    ¬ perUnitTempRename (augment_spotify_with_tidal_ids cexOracleHit cexDocC2 "out.json").2
        "out.json.part" ∧
    (augment_spotify_with_tidal_ids cexOracleHit cexDocC2 "out.json").2.count
        (Ev.write "out.json.part") = 2 ∧
    (augment_spotify_with_tidal_ids cexOracleHit cexDocC2 "out.json").2.filter isRenameEv =
      [Ev.rename "out.json.part" "out.json"] := by
  refine ⟨by decide, by decide, by decide⟩

/-- C2 (amended): every file-system effect of the augmentation job is either
    one of the per-unit direct whole-document writes to the .part path or the
    single final atomic rename of the .part file onto the output path.  An
    interruption therefore never corrupts the original input or a previously
    completed output file, but the in-progress .part checkpoint itself is
    rewritten in place (not via a temporary file plus rename) and can be left
    partially written. -/
theorem claim2_amended (oracle : String → SResp) (doc : SDoc) (output_path : String) :
    ∃ n, ((augment_spotify_with_tidal_ids oracle doc output_path).2).filter isFsEv =
      List.replicate n (Ev.write (output_path ++ ".part")) ++
        [Ev.rename (output_path ++ ".part") output_path] := by
  obtain ⟨n, hn⟩ := augTidalPlaylists_fs oracle (output_path ++ ".part")
    (sanitizePlaylistNames doc).playlists (buildSpToTd (sanitizePlaylistNames doc))
  exact ⟨n, by simp [augment_spotify_with_tidal_ids, List.filter_append, hn, isFsEv]⟩

/-- C7 counterexample: in the Spotify-augmentation direction a track whose
    tidal id is already in the cross-reference map (resolved on a previous
    occurrence) IS filled from the map and triggers no search — the trace of
    the whole job holds no search event — but NO provenance tag is recorded:
    the search-level field of the second occurrence stays absent instead of
    "reused", contradicting the claim. -/
theorem claim7_counterexample :
    ((((augment_tidal_with_spotify_ids cexSpotOracle cexDocC7 "out.json").1.playlists.headD
        ⟨"", []⟩).tracks.getD 1 cexDupB).trackUri_spotify = some "S1") ∧
    (augment_tidal_with_spotify_ids cexSpotOracle cexDocC7 "out.json").2 =
      [Ev.write "out.json.part", Ev.rename "out.json.part" "out.json"] ∧
    ¬((((augment_tidal_with_spotify_ids cexSpotOracle cexDocC7 "out.json").1.playlists.headD
        ⟨"", []⟩).tracks.getD 1 cexDupB).tidal_search_level = some Prov.reused) := by
  refine ⟨by decide, by decide, by decide⟩

/-- C7 (amended): a track whose identifier is already in the cross-reference
    map is filled directly from the map, with zero resolver/search calls and
    no change to the map; the Tidal-augmentation path records provenance
    "reused" in tidal_search_level, while the Spotify-augmentation path
    records no provenance tag at all (the field is left untouched). -/
theorem claim7_amended :
    (∀ (oracle : String → SResp) (part : String) (m : List (String × String))
        (tr : STrack) (tid : String),
      optTruthy tr.trackUri_spotify = true →
      optTruthy tr.trackUri_tidal = false →
      (dictGet m (tr.trackUri_spotify.getD "")).bind
        (fun v => if v == "" then none else some v) = some tid →
      processTidalTrack oracle part m tr =
        ({tr with trackUri_tidal := some tid, tidal_search_level := some Prov.reused},
          m, [Ev.write part])) ∧
    (∀ (oracle : String → SpotSearch) (part : String)
        (m : List (String × Option String)) (t : STrack) (v : Option String),
      optTruthy t.trackUri_tidal = true →
      optTruthy t.trackUri_spotify = false →
      spotDictGet m (t.trackUri_tidal.getD "") = some v →
      processSpotifyTrack oracle part m t =
        ({t with trackUri_spotify := v}, m, [Ev.write part])) := by
  constructor
  · intro oracle part m tr tid h1 h2 hm
    unfold processTidalTrack
    rw [if_neg (by simp [h1, h2]), hm]
  · intro oracle part m t v h1 h2 hm
    unfold processSpotifyTrack
    rw [if_neg (by simp [h1, h2]), hm]

/-- Witness for C7 (amended) at concrete inputs on both paths. -/
theorem claim7_witness :
    processTidalTrack cexOracleHit "p.part" [("sp9", "td9")]
        ⟨"N", "A", some "sp9", none, none⟩ =
      (⟨"N", "A", some "sp9", some "td9", some Prov.reused⟩, [("sp9", "td9")],
        [Ev.write "p.part"]) ∧
    processSpotifyTrack cexSpotOracle "p.part" [("td9", some "sp9")]
        ⟨"N", "A", none, some "td9", none⟩ =
      (⟨"N", "A", some "sp9", some "td9", none⟩, [("td9", some "sp9")],
        [Ev.write "p.part"]) :=
  ⟨claim7_amended.1 cexOracleHit "p.part" [("sp9", "td9")]
      ⟨"N", "A", some "sp9", none, none⟩ "td9" (by decide) (by decide) (by decide),
   claim7_amended.2 cexSpotOracle "p.part" [("td9", some "sp9")]
      ⟨"N", "A", none, some "td9", none⟩ (some "sp9") (by decide) (by decide) (by decide)⟩

theorem countReq_cons_req (a : Nat) (evs : List Tidal.REv) :
    Tidal.countReq (Tidal.REv.req a :: evs) = Tidal.countReq evs + 1 := by
  simp [Tidal.countReq, List.countP_cons]

theorem countReq_cons_slp (w : ℚ) (evs : List Tidal.REv) :
    Tidal.countReq (Tidal.REv.slp w :: evs) = Tidal.countReq evs := by
  simp [Tidal.countReq, List.countP_cons]

theorem countReq_cons_refresh (evs : List Tidal.REv) :
    Tidal.countReq (Tidal.REv.refreshTok :: evs) = Tidal.countReq evs := by
  simp [Tidal.countReq, List.countP_cons]

theorem countReq_runTidalGo (resps : Nat → Tidal.TResp) (jit : Nat → ℚ) (hasRT : Bool) :
    ∀ (fuel a : Nat) (total : ℚ),
      Tidal.countReq (Tidal.runTidalGo resps jit hasRT fuel a total).2 ≤ fuel
  | 0, a, total => by
    unfold Tidal.runTidalGo
    split
    · simp [Tidal.countReq]
    · simp [Tidal.countReq]
  | fuel + 1, a, total => by
    unfold Tidal.runTidalGo
    split
    · split
      · simp [Tidal.countReq, List.countP_cons]
      · rw [countReq_cons_req, countReq_cons_slp]
        exact Nat.succ_le_succ (countReq_runTidalGo resps jit hasRT fuel (a + 1) _)
    · split
      · rw [countReq_cons_req, countReq_cons_refresh]
        exact Nat.succ_le_succ (countReq_runTidalGo resps jit hasRT fuel (a + 1) _)
      · split
        · split
          · simp [Tidal.countReq, List.countP_cons]
          · rw [countReq_cons_req, countReq_cons_slp]
            exact Nat.succ_le_succ (countReq_runTidalGo resps jit hasRT fuel (a + 1) _)
        · split
          · rw [countReq_cons_req, countReq_cons_slp]
            exact Nat.succ_le_succ (countReq_runTidalGo resps jit hasRT fuel (a + 1) _)
          · split
            · simp [Tidal.countReq, List.countP_cons]
            · simp [Tidal.countReq, List.countP_cons]

theorem countReq_runSpotifyGo (calls : Nat → Spotify.SCall) (u : Nat → ℚ) :
    ∀ (fuel a : Nat),
      Tidal.countReq (Spotify.runSpotifyGo calls u fuel a).2 ≤ fuel + 1
  | 0, a => by
    unfold Spotify.runSpotifyGo
    split
    · simp [Tidal.countReq, List.countP_cons]
    · simp [Tidal.countReq, List.countP_cons]
  | fuel + 1, a => by
    unfold Spotify.runSpotifyGo
    split
    · simp [Tidal.countReq, List.countP_cons]
    · split
      · rw [countReq_cons_req, countReq_cons_slp]
        exact Nat.succ_le_succ (countReq_runSpotifyGo calls u fuel (a + 1))
      · split
        · rw [countReq_cons_req, countReq_cons_slp]
          exact Nat.succ_le_succ (countReq_runSpotifyGo calls u fuel (a + 1))
        · simp [Tidal.countReq, List.countP_cons]

/-- C4 counterexample: a rate-limited response carrying Retry-After 10 and
    the legal jitter draw 0.8 (the lower end of uniform(0.8, 1.5)) makes the
    TIDAL retry loop sleep exactly 8 seconds before retrying — strictly less
    than the header's N = 10 seconds, so the computed wait is not ≥ N. -/
theorem claim4_counterexample :
    (resp429 1).retryAfter = some 10 ∧
    (4 : ℚ) / 5 ≤ jitter45 1 ∧ jitter45 1 ≤ 3 / 2 ∧
    (Tidal._request_with_retries resp429 jitter45 true).2.get? 1 =
      some (Tidal.REv.slp 8) ∧
    (8 : ℚ) < 10 := by
  refine ⟨rfl, by norm_num [jitter45], by norm_num [jitter45], by decide, by norm_num⟩

theorem tidal429Wait_lower (r : Tidal.TResp) (a : Nat) (jit N : ℚ)
    (hra : r.retryAfter = some N) (hN : 0 ≤ N) (hj : 4 / 5 ≤ jit) :
    4 / 5 * N ≤ Tidal.tidal429Wait r a jit := by
  unfold Tidal.tidal429Wait
  rw [hra]
  calc 4 / 5 * N = N * (4 / 5) := by ring
    _ ≤ N * jit := mul_le_mul_of_nonneg_left hj hN

/-- C4 (amended): for a 429 carrying Retry-After N the TIDAL integration
    waits N scaled by a jitter drawn from [0.8, 1.5] — hence at least 0.8·N,
    not at least N — and makes at most _MAX_RETRIES + 1 requests (that is,
    _MAX_RETRIES additional retries) in one logical call before the final
    failure propagates; the Spotify integration draws its wait uniformly from
    [0, min(_MAX_BACKOFF, _BASE_BACKOFF·2^(attempt-1)) + N] — hence at most
    the window, possibly below N — and likewise makes at most
    _MAX_RETRIES + 1 calls. -/
theorem claim4_amended :
    (∀ (r : Tidal.TResp) (a : Nat) (jit N : ℚ),
      r.retryAfter = some N → 0 ≤ N → 4 / 5 ≤ jit →
      4 / 5 * N ≤ Tidal.tidal429Wait r a jit) ∧
    (∀ (resps : Nat → Tidal.TResp) (jit : Nat → ℚ) (hasRT : Bool),
      Tidal.countReq (Tidal._request_with_retries resps jit hasRT).2 ≤
        Tidal._MAX_RETRIES + 1) ∧
    (∀ (a : Nat) (ra : Int) (u : ℚ),
      0 ≤ u → u ≤ 1 → (0 : ℚ) ≤ (ra : ℚ) →
      u * Spotify.spotify429Window a ra ≤ Spotify.spotify429Window a ra) ∧
    (∀ (calls : Nat → Spotify.SCall) (u : Nat → ℚ),
      Tidal.countReq (Spotify._retry_spotify_call calls u).2 ≤
        Spotify._MAX_RETRIES + 1) := by
  refine ⟨tidal429Wait_lower, ?_, ?_, ?_⟩
  · intro resps jit hasRT
    exact countReq_runTidalGo resps jit hasRT (Tidal._MAX_RETRIES + 1) 1 0
  · intro a ra u h0 h1 hra
    apply mul_le_of_le_one_left ?_ h1
    unfold Spotify.spotify429Window
    have hmin : (0 : ℚ) ≤ min Spotify._MAX_BACKOFF (Spotify._BASE_BACKOFF * 2 ^ (a - 1)) := by
      apply le_min
      · norm_num [Spotify._MAX_BACKOFF]
      · unfold Spotify._BASE_BACKOFF
        positivity
    linarith
  · intro calls u
    exact countReq_runSpotifyGo calls u Spotify._MAX_RETRIES 1

/-- Witness for C4 (amended) at concrete inputs. -/
theorem claim4_witness :
    (4 : ℚ) / 5 * 10 ≤ Tidal.tidal429Wait (resp429 1) 1 (jitter45 1) ∧
    Tidal.countReq (Tidal._request_with_retries resp429 jitter45 true).2 ≤
      Tidal._MAX_RETRIES + 1 ∧
    (1 : ℚ) / 2 * Spotify.spotify429Window 1 10 ≤ Spotify.spotify429Window 1 10 ∧
    Tidal.countReq (Spotify._retry_spotify_call (fun _ => ⟨true, 429, 10⟩)
      (fun _ => 1 / 2)).2 ≤ Spotify._MAX_RETRIES + 1 :=
  ⟨claim4_amended.1 (resp429 1) 1 (jitter45 1) 10 rfl (by norm_num)
      (by norm_num [jitter45]),
   claim4_amended.2.1 resp429 jitter45 true,
   claim4_amended.2.2.1 1 10 (1 / 2) (by norm_num) (by norm_num) (by norm_num),
   claim4_amended.2.2.2 (fun _ => ⟨true, 429, 10⟩) (fun _ => 1 / 2)⟩

/-- C9 counterexample: with a refresh token present, a persistently
    auth-expired endpoint (401 on every attempt) is retried on EVERY loop
    iteration — the trace holds 3 requests, i.e. 2 retries on account of 401,
    before the final 401 is raised — so a call can be retried more than once
    on account of 401 responses. -/
theorem claim9_counterexample :
    Tidal.countReq (Tidal._request_with_retries resp401 jitter1 true).2 = 3 ∧
    (Tidal._request_with_retries resp401 jitter1 true).1 =
      Tidal.ROut.raisedStatus 401 ∧
    ¬(Tidal.countReq (Tidal._request_with_retries resp401 jitter1 true).2 ≤ 2) := by
  refine ⟨by decide, by decide, by decide⟩

/-- C9 (amended): a 401 triggers a token refresh and a retry only when a
    refresh token is present — without one the 401 raises immediately with a
    single request and no retry; with one, EVERY 401 consumes an attempt
    (refresh then retry), so a persistent 401 is retried _MAX_RETRIES times
    (not exactly once) before the loop ends and the last 401 is raised; in
    all cases one logical call issues at most _MAX_RETRIES + 1 requests. -/
theorem claim9_amended :
    (∀ (resps : Nat → Tidal.TResp) (jit : Nat → ℚ),
      (resps 1).isExn = false → (resps 1).status = 401 →
      Tidal._request_with_retries resps jit false =
        (Tidal.ROut.raisedStatus 401, [Tidal.REv.req 1])) ∧
    (∀ (resps : Nat → Tidal.TResp) (jit : Nat → ℚ),
      (∀ a, a ≤ Tidal._MAX_RETRIES + 1 → (resps a).isExn = false ∧ (resps a).status = 401) →
      Tidal._request_with_retries resps jit true =
        (Tidal.ROut.raisedStatus 401,
         [Tidal.REv.req 1, Tidal.REv.refreshTok, Tidal.REv.req 2, Tidal.REv.refreshTok,
          Tidal.REv.req 3, Tidal.REv.refreshTok])) ∧
    (∀ (resps : Nat → Tidal.TResp) (jit : Nat → ℚ) (hasRT : Bool),
      Tidal.countReq (Tidal._request_with_retries resps jit hasRT).2 ≤
        Tidal._MAX_RETRIES + 1) := by
  refine ⟨?_, ?_, ?_⟩
  · intro resps jit h1 h2
    unfold Tidal._request_with_retries
    simp [Tidal.runTidalGo, h1, h2, Tidal._MAX_RETRIES]
  · intro resps jit h
    obtain ⟨e1, s1⟩ := h 1 (by norm_num [Tidal._MAX_RETRIES])
    obtain ⟨e2, s2⟩ := h 2 (by norm_num [Tidal._MAX_RETRIES])
    obtain ⟨e3, s3⟩ := h 3 (by norm_num [Tidal._MAX_RETRIES])
    unfold Tidal._request_with_retries
    simp [Tidal.runTidalGo, e1, s1, e2, s2, e3, s3, Tidal._MAX_RETRIES]
  · intro resps jit hasRT
    exact countReq_runTidalGo resps jit hasRT (Tidal._MAX_RETRIES + 1) 1 0

/-- Witness for C9 (amended) at concrete inputs. -/
theorem claim9_witness :
    Tidal._request_with_retries resp401 jitter1 false =
      (Tidal.ROut.raisedStatus 401, [Tidal.REv.req 1]) ∧
    Tidal._request_with_retries resp401 jitter1 true =
      (Tidal.ROut.raisedStatus 401,
       [Tidal.REv.req 1, Tidal.REv.refreshTok, Tidal.REv.req 2, Tidal.REv.refreshTok,
        Tidal.REv.req 3, Tidal.REv.refreshTok]) ∧
    Tidal.countReq (Tidal._request_with_retries resp401 jitter1 true).2 ≤
      Tidal._MAX_RETRIES + 1 :=
  ⟨claim9_amended.1 resp401 jitter1 rfl rfl,
   claim9_amended.2.1 resp401 jitter1 (fun a _ => ⟨rfl, rfl⟩),
   claim9_amended.2.2 resp401 jitter1 true⟩
